import Mathlib

/-!
Verification development for the sprak sprite packer.

The configuration surface, frame collection dispatch and the `pack` driver are
embedded from `src/sprak/sprite_packer.py`.  The packing engine itself
(`sprak.models.atlas.Atlas`, `sprak.models.frame.Frame`) is not present in the
repository sources; those parts are modelled from the design document
(trimmer, shelf rectangle packer, growth loop, composition and layout
serialization) and are marked `Modelled from the spec` on each definition.

Python integers are embedded as `Int` where negative values are observable
(configuration fields); the geometry of the packing engine, whose inputs are
validated non-negative quantities, is embedded over `Nat`.
-/

/-- Python exception classes raised by the embedded code, by name. -/
inductive PackerError
  | valueError
  | notADirectoryError
  | runtimeError
  | fileNotFoundError
deriving DecidableEq, Repr

/-- Configuration state of `SpritePacker` (`SpritePacker.__init__`,
`sprite_packer.py` lines 11-18).  The `_temp_dir` handle is part of the
filesystem side channel and carries no configuration, so it is not a field
here. -/
structure SpritePacker where
  atlas_width : Int
  atlas_height : Int
  atlas_step : Int
  padding : Int
  trim_edges : Bool
  source_folders : List String
deriving DecidableEq, Repr

/-- A freshly constructed `SpritePacker()`: the field values assigned by
`__init__`. -/
def SpritePacker.new : SpritePacker :=
  { atlas_width := 64
    atlas_height := 64
    atlas_step := 64
    padding := 0
    trim_edges := true
    source_folders := [] }

/-- The `padding` property setter (`sprite_packer.py` lines 25-29): raises
`ValueError` for a negative value before any assignment happens, otherwise
stores the value. -/
def SpritePacker.set_padding (p : SpritePacker) (value : Int) :
    Except PackerError SpritePacker :=
  if value < 0 then Except.error PackerError.valueError
  else Except.ok { p with padding := value }

/-- `SpritePacker.set_atlas_size` (`sprite_packer.py` lines 40-43): assigns
both fields unconditionally; no code path raises. -/
def SpritePacker.set_atlas_size (p : SpritePacker) (width height : Int) :
    Except PackerError SpritePacker :=
  Except.ok { p with atlas_width := width, atlas_height := height }

/-- Observable effects of one `SpritePacker.pack` call, in program order. -/
inductive PackEvent
  | collectFrames
  | trimFrame (idx : Nat)
  | writeImage
  | writeFrameData
deriving DecidableEq, Repr

/-- The part of the filesystem state that `pack` consults before doing any
work: whether the output folder argument is an existing directory. -/
structure FsEnv where
  output_is_dir : Bool
deriving DecidableEq, Repr

/-- Effect trace of `SpritePacker.pack` (`sprite_packer.py` lines 55-77):
`_validate_output_folder` runs first and raises `NotADirectoryError` when the
output folder is not a directory; only afterwards are frames collected,
optionally trimmed, and the image and frame-data files written.  The result is
the list of performed effects together with the raised error, if any. -/
def SpritePacker.packEffects (p : SpritePacker) (env : FsEnv) (frameCount : Nat) :
    List PackEvent × Option PackerError :=
  if env.output_is_dir then
    ([PackEvent.collectFrames]
      ++ (if p.trim_edges then (List.range frameCount).map PackEvent.trimFrame else [])
      ++ [PackEvent.writeImage, PackEvent.writeFrameData], none)
  else
    ([], some PackerError.notADirectoryError)

/-- A file met while walking the source folders; only its suffix drives the
dispatch in `_collect_frames`. -/
structure SrcFile where
  suffix : String
deriving DecidableEq, Repr

/-- Per-file dispatch of `SpritePacker._collect_frames` (`sprite_packer.py`
lines 85-99): `match file.suffix.lower()` appends one frame for `".png"`, the
decoded frame list for `".aseprite"`, and nothing otherwise.  The two frame
constructors are external collaborators, taken as parameters. -/
def framesFromFile {α : Type} (png_to_frame : SrcFile → α)
    (aseprite_to_frames : SrcFile → List α) (file : SrcFile) : List α :=
  if file.suffix.toLower = ".png" then [png_to_frame file]
  else if file.suffix.toLower = ".aseprite" then aseprite_to_frames file
  else []

/-- `SpritePacker._collect_frames`: concatenation of the per-file
contributions over every file encountered in the source folders, in walk
order. -/
def collect_frames {α : Type} (png_to_frame : SrcFile → α)
    (aseprite_to_frames : SrcFile → List α) (files : List SrcFile) : List α :=
  files.flatMap (framesFromFile png_to_frame aseprite_to_frames)

/-- Claim C8: a freshly constructed packer has atlas width 64, height 64,
growth step 64, padding 0, and the trim-edges flag enabled. -/
theorem new_packer_defaults :
    SpritePacker.new.atlas_width = 64 ∧ SpritePacker.new.atlas_height = 64 ∧
    SpritePacker.new.atlas_step = 64 ∧ SpritePacker.new.padding = 0 ∧
    SpritePacker.new.trim_edges = true :=
  ⟨rfl, rfl, rfl, rfl, rfl⟩

/-- Claim C4: assigning a negative value to `padding` raises `ValueError` at
configuration time, before any assignment, so the stored padding is unchanged
(the error result carries no updated packer); assigning a non-negative value
succeeds and the stored padding becomes that value. -/
theorem set_padding_spec (p : SpritePacker) (v : Int) :
    (v < 0 → SpritePacker.set_padding p v = Except.error PackerError.valueError) ∧
    (0 ≤ v → SpritePacker.set_padding p v = Except.ok { p with padding := v }) := by
  constructor
  · intro h
    simp [SpritePacker.set_padding, if_pos h]
  · intro h
    simp [SpritePacker.set_padding, if_neg (not_lt.mpr h)]

/-- Witness for C4 at padding values `-3` and `5`. -/
theorem set_padding_spec_witness :
    SpritePacker.set_padding SpritePacker.new (-3) = Except.error PackerError.valueError ∧
    SpritePacker.set_padding SpritePacker.new 5
      = Except.ok { SpritePacker.new with padding := 5 } :=
  ⟨(set_padding_spec SpritePacker.new (-3)).1 (by decide),
   (set_padding_spec SpritePacker.new 5).2 (by decide)⟩

/-- Claim C5 counterexample: invalid atlas dimensions are not rejected.
`set_atlas_size` never raises; in particular width 0 and height 0 are stored
successfully, refuting eager rejection at configuration time. -/
theorem set_atlas_size_accepts_invalid_cex :
    ¬ (∀ (p : SpritePacker) (w h : Int), w ≤ 0 ∨ h ≤ 0 →
        ∃ e, SpritePacker.set_atlas_size p w h = Except.error e) := by
  intro hclaim
  rcases hclaim SpritePacker.new 0 0 (Or.inl le_rfl) with ⟨e, he⟩
  simp [SpritePacker.set_atlas_size] at he

/-- Claim C5 (amended): `set_atlas_size` performs no validation; every pair of
integer dimensions, including zero and negative values, is stored as given
without an error. -/
theorem set_atlas_size_stores_unvalidated (p : SpritePacker) (w h : Int) :
    SpritePacker.set_atlas_size p w h
      = Except.ok { p with atlas_width := w, atlas_height := h } := rfl

/-- Claim C10: when the output folder is not an existing directory, `pack`
raises `NotADirectoryError` and its effect trace is empty: no frame is
collected or trimmed and neither output file is written. -/
theorem pack_invalid_output_folder (p : SpritePacker) (env : FsEnv) (n : Nat)
    (h : env.output_is_dir = false) :
    p.packEffects env n = ([], some PackerError.notADirectoryError) := by
  simp [SpritePacker.packEffects, h]

/-- Witness for C10: a fresh packer with a missing output directory. -/
theorem pack_invalid_output_folder_witness :
    SpritePacker.new.packEffects { output_is_dir := false } 3
      = ([], some PackerError.notADirectoryError) :=
  pack_invalid_output_folder SpritePacker.new { output_is_dir := false } 3 rfl

/-- Claim C9: provided the aseprite decoder yields at least one frame per
file (an external collaborator guarantee), a file contributes frames in
`_collect_frames` exactly when its suffix, lowercased, is `".png"` or
`".aseprite"`; any other suffix contributes no frame. -/
theorem frames_iff_known_suffix {α : Type} (png_to_frame : SrcFile → α)
    (aseprite_to_frames : SrcFile → List α)
    (hase : ∀ f, aseprite_to_frames f ≠ []) (file : SrcFile) :
    framesFromFile png_to_frame aseprite_to_frames file ≠ [] ↔
      (file.suffix.toLower = ".png" ∨ file.suffix.toLower = ".aseprite") := by
  unfold framesFromFile
  split_ifs with h1 h2
  · simp [h1]
  · simpa [h2] using hase file
  · simp [h1, h2]

/-- Witness for C9: a `".PNG"` file (case-insensitive match) contributes a
frame. -/
theorem frames_iff_known_suffix_witness :
    (framesFromFile (fun _ => (0 : Nat)) (fun _ => [0]) { suffix := ".PNG" } ≠ [] ↔
      (SrcFile.suffix { suffix := ".PNG" }).toLower = ".png" ∨
        (SrcFile.suffix { suffix := ".PNG" }).toLower = ".aseprite") :=
  frames_iff_known_suffix (fun _ => (0 : Nat)) (fun _ => [0])
    (fun _ => List.cons_ne_nil 0 []) { suffix := ".PNG" }

/-- An RGBA sample of a frame's pixel buffer. -/
structure Pixel where
  r : Nat
  g : Nat
  b : Nat
  a : Nat
deriving DecidableEq, Repr

/-- Modelled from the spec: one row of the Trimmer's scan (spec section 4.1;
`sprak.models.frame` is absent from the sources).  Collects the coordinates of
the pixels in one row whose alpha channel exceeds zero, `x` counting from the
given start. -/
def rowContent (y : Nat) : Nat → List Pixel → List (Nat × Nat)
  | _, [] => []
  | x, px :: row => (if 0 < px.a then [(x, y)] else []) ++ rowContent y (x + 1) row

/-- Modelled from the spec: the Trimmer's full scan over the buffer rows. -/
def contentAux : Nat → List (List Pixel) → List (Nat × Nat)
  | _, [] => []
  | y, row :: rows => rowContent y 0 row ++ contentAux (y + 1) rows

/-- Coordinates of every pixel with non-zero alpha, in scan order. -/
def contentPixels (buf : List (List Pixel)) : List (Nat × Nat) := contentAux 0 buf

/-- Modelled from the spec: the Trimmer contract (spec section 4.1) — smallest
axis-aligned rectangle `(offset_x, offset_y, width, height)` containing every
pixel with non-zero alpha; a fully transparent buffer yields the 1×1 rectangle
at the origin. -/
def trim_rect (buf : List (List Pixel)) : Nat × Nat × Nat × Nat :=
  match contentPixels buf with
  | [] => (0, 0, 1, 1)
  | q :: qs =>
      let xs := (q :: qs).map Prod.fst
      let ys := (q :: qs).map Prod.snd
      let x0 := xs.foldl Nat.min q.1
      let x1 := xs.foldl Nat.max q.1
      let y0 := ys.foldl Nat.min q.2
      let y1 := ys.foldl Nat.max q.2
      (x0, y0, x1 + 1 - x0, y1 + 1 - y0)

/-- Modelled from the spec: `sprak.models.frame.Frame` (absent from the
sources) — a named sprite with its pixel buffer and trim rectangle, the
latter initialised to full bounds (spec section 3). -/
structure Frame where
  name : String
  pixels : List (List Pixel)
  width : Nat
  height : Nat
  trim_off : Nat × Nat
  trim_sz : Nat × Nat
deriving DecidableEq, Repr

/-- Modelled from the spec: `Frame` construction — trim state starts at full
bounds: offset `(0, 0)`, size `(width, height)`. -/
def mkFrame (nm : String) (pixels : List (List Pixel)) : Frame :=
  let w := (pixels.headD []).length
  let h := pixels.length
  { name := nm, pixels := pixels, width := w, height := h,
    trim_off := (0, 0), trim_sz := (w, h) }

/-- Modelled from the spec: `Frame.trim_edges` — replace the trim rectangle by
the Trimmer's result on the frame's buffer. -/
def Frame.trimEdges (f : Frame) : Frame :=
  let r := trim_rect f.pixels
  { f with trim_off := (r.1, r.2.1), trim_sz := (r.2.2.1, r.2.2.2) }

/-- The trimming step of `SpritePacker.pack` (`sprite_packer.py` lines 64-66):
every frame is trimmed when the flag is set, otherwise the loop body never
runs. -/
def packTrimStage (p : SpritePacker) (frames : List Frame) : List Frame :=
  if p.trim_edges then frames.map Frame.trimEdges else frames

theorem foldl_min_le (l : List Nat) : ∀ i : Nat, l.foldl Nat.min i ≤ i := by
  induction l with
  | nil => intro i; exact le_rfl
  | cons x l ih => intro i; exact le_trans (ih (Nat.min i x)) (Nat.min_le_left i x)

theorem le_foldl_max (l : List Nat) : ∀ i : Nat, i ≤ l.foldl Nat.max i := by
  induction l with
  | nil => intro i; exact le_rfl
  | cons x l ih => intro i; exact le_trans (Nat.le_max_left i x) (ih (Nat.max i x))

theorem rowContent_eq_nil (y : Nat) (row : List Pixel)
    (h : ∀ px ∈ row, px.a = 0) : ∀ x, rowContent y x row = [] := by
  induction row with
  | nil => intro x; rfl
  | cons px row ih =>
    intro x
    have h0 : px.a = 0 := h px (List.mem_cons_self px row)
    simp [rowContent, h0, ih (fun q hq => h q (List.mem_cons_of_mem px hq))]

theorem contentAux_eq_nil (buf : List (List Pixel))
    (h : ∀ row ∈ buf, ∀ px ∈ row, px.a = 0) : ∀ y, contentAux y buf = [] := by
  induction buf with
  | nil => intro y; rfl
  | cons row rows ih =>
    intro y
    simp [contentAux,
      rowContent_eq_nil y row (h row (List.mem_cons_self row rows)) 0,
      ih (fun r hr => h r (List.mem_cons_of_mem row hr)) (y + 1)]

/-- Claim C6: a buffer in which no pixel has non-zero alpha trims to the 1×1
rectangle at the origin, and the trim rectangle of any buffer has positive
width and height — trimming never returns a zero-area rectangle. -/
theorem trim_rect_never_degenerate (buf : List (List Pixel)) :
    ((∀ row ∈ buf, ∀ px ∈ row, px.a = 0) → trim_rect buf = (0, 0, 1, 1)) ∧
    0 < (trim_rect buf).2.2.1 ∧ 0 < (trim_rect buf).2.2.2 := by
  constructor
  · intro h
    unfold trim_rect contentPixels
    rw [contentAux_eq_nil buf h 0]
  · cases hc : contentPixels buf with
    | nil =>
      unfold trim_rect
      rw [hc]
      exact ⟨Nat.one_pos, Nat.one_pos⟩
    | cons q qs =>
      unfold trim_rect
      rw [hc]
      dsimp only
      have h1 := foldl_min_le ((q :: qs).map Prod.fst) q.1
      have h2 := le_foldl_max ((q :: qs).map Prod.fst) q.1
      have h3 := foldl_min_le ((q :: qs).map Prod.snd) q.2
      have h4 := le_foldl_max ((q :: qs).map Prod.snd) q.2
      constructor <;> omega

/-- Witness for C6: a 2×2 fully transparent buffer. -/
theorem trim_rect_never_degenerate_witness :
    trim_rect [[{ r := 0, g := 0, b := 0, a := 0 }, { r := 1, g := 2, b := 3, a := 0 }],
               [{ r := 4, g := 5, b := 6, a := 0 }, { r := 7, g := 8, b := 9, a := 0 }]]
      = (0, 0, 1, 1) :=
  (trim_rect_never_degenerate _).1 (by decide)

/-- Claim C7: with the trim-edges flag disabled, the trimming step of `pack`
is skipped entirely: the frame list is returned unchanged, and every frame
keeps trim offset `(0, 0)` and trim size equal to its original dimensions. -/
theorem trim_disabled_skips (p : SpritePacker)
    (inputs : List (String × List (List Pixel))) (h : p.trim_edges = false) :
    packTrimStage p (inputs.map fun nb => mkFrame nb.1 nb.2)
        = inputs.map (fun nb => mkFrame nb.1 nb.2) ∧
    ∀ f ∈ packTrimStage p (inputs.map fun nb => mkFrame nb.1 nb.2),
      f.trim_off = (0, 0) ∧ f.trim_sz = (f.width, f.height) := by
  have hs : packTrimStage p (inputs.map fun nb => mkFrame nb.1 nb.2)
      = inputs.map (fun nb => mkFrame nb.1 nb.2) := by
    simp [packTrimStage, h]
  refine ⟨hs, ?_⟩
  rw [hs]
  intro f hf
  rcases List.mem_map.mp hf with ⟨nb, _, rfl⟩
  exact ⟨rfl, rfl⟩

/-- Witness for C7: one opaque 1×1 frame under a packer with trimming
disabled. -/
theorem trim_disabled_skips_witness :
    (packTrimStage { SpritePacker.new with trim_edges := false }
        (([(("s" : String), [[({ r := 9, g := 9, b := 9, a := 5 } : Pixel)]])]).map
          fun nb => mkFrame nb.1 nb.2)
        = ([(("s" : String), [[({ r := 9, g := 9, b := 9, a := 5 } : Pixel)]])]).map
            (fun nb => mkFrame nb.1 nb.2)) ∧
    ∀ f ∈ packTrimStage { SpritePacker.new with trim_edges := false }
        (([(("s" : String), [[({ r := 9, g := 9, b := 9, a := 5 } : Pixel)]])]).map
          fun nb => mkFrame nb.1 nb.2),
      f.trim_off = (0, 0) ∧ f.trim_sz = (f.width, f.height) :=
  trim_disabled_skips { SpritePacker.new with trim_edges := false } _ rfl

/-- Modelled from the spec: a rectangle handed to the Rectangle Packer (spec
section 4.2) — a frame's trimmed size, tagged with the frame's input index. -/
structure Rect where
  w : Nat
  h : Nat
  id : Nat
deriving DecidableEq, Repr

/-- Modelled from the spec: a `PlacedFrame` record (spec section 3) — the
`atlas_position` of the trimmed content together with its size and the frame
index. -/
structure Placement where
  x : Nat
  y : Nat
  w : Nat
  h : Nat
  id : Nat
deriving DecidableEq, Repr

/-- Modelled from the spec: one shelf of the shelf/skyline packer (spec
section 4.2): its top coordinate, fixed height, horizontal fill cursor, and
the placements made on it, in placement order. -/
structure PackShelf where
  y : Nat
  height : Nat
  cursor : Nat
  rects : List Placement
deriving DecidableEq, Repr

/-- Modelled from the spec: a rectangle, expanded by `p` on its leading
edges, fits a shelf when the expanded height fits the shelf height and the
expanded width fits the remaining horizontal room of the bin. -/
def shelfFits (W p : Nat) (r : Rect) (s : PackShelf) : Bool :=
  decide (r.h + p ≤ s.height) && decide (s.cursor + p + r.w ≤ W)

/-- Modelled from the spec: place a rectangle on a shelf at the fill cursor;
the padded rectangle occupies `[cursor, cursor + p + w)`, so the content
lands at `(cursor + p, shelf.y + p)` and the cursor advances past it. -/
def placeInShelf (p : Nat) (r : Rect) (s : PackShelf) : PackShelf :=
  let pl : Placement := { x := s.cursor + p, y := s.y + p, w := r.w, h := r.h, id := r.id }
  { s with cursor := s.cursor + p + r.w, rects := s.rects ++ [pl] }

/-- Modelled from the spec: best-fit shelf height — the smallest height among
the shelves that fit the rectangle (spec section 4.2). -/
def minFitHeight (W p : Nat) (r : Rect) (shelves : List PackShelf) : Option Nat :=
  ((shelves.filter (shelfFits W p r)).map PackShelf.height).min?

/-- Modelled from the spec: place the rectangle on the first fitting shelf of
the selected height (first-fit among best-fit-height shelves). -/
def placeBest (W p : Nat) (r : Rect) (hmin : Nat) : List PackShelf → Option (List PackShelf)
  | [] => none
  | s :: ss =>
      if shelfFits W p r s && decide (s.height = hmin) then
        some (placeInShelf p r s :: ss)
      else
        (placeBest W p r hmin ss).map (s :: ·)

/-- Bottom edge of the lowest used shelf: where a new shelf would start. -/
def shelvesEnd : List PackShelf → Nat
  | [] => 0
  | [s] => s.y + s.height
  | _ :: ss => shelvesEnd ss

/-- Modelled from the spec: open a new shelf below the lowest used shelf if
vertical room remains (spec section 4.2); the first rectangle is placed at
the shelf start. -/
def newShelf (W H p : Nat) (r : Rect) (shelves : List PackShelf) : Option (List PackShelf) :=
  let yTop := shelvesEnd shelves
  let pl : Placement := { x := p, y := yTop + p, w := r.w, h := r.h, id := r.id }
  let ns : PackShelf := { y := yTop, height := r.h + p, cursor := p + r.w, rects := [pl] }
  if yTop + r.h + p ≤ H ∧ p + r.w ≤ W then some (shelves ++ [ns])
  else none

/-- Modelled from the spec: place one rectangle — best-fit shelf if any shelf
fits, otherwise a new shelf, otherwise unplaceable. -/
def placeRect (W H p : Nat) (shelves : List PackShelf) (r : Rect) : Option (List PackShelf) :=
  match minFitHeight W p r shelves with
  | some hmin => placeBest W p r hmin shelves
  | none => newShelf W H p r shelves

/-- Modelled from the spec: pack an ordered rectangle list into the
`W × H` bin, failing as soon as one rectangle is unplaceable. -/
def packRects (W H p : Nat) (rs : List Rect) : Option (List PackShelf) :=
  rs.foldlM (placeRect W H p) []

/-- Modelled from the spec: the ordering policy (spec section 4.2) —
descending height, ties descending width, remaining ties by input order. -/
def rectOrder (a b : Rect) : Bool :=
  decide (b.h < a.h) || (decide (a.h = b.h) && decide (b.w ≤ a.w))

/-- Stable insertion into a sorted list: a rectangle goes before the first
element it does not come after, so tied rectangles keep input order. -/
def insertRect (r : Rect) : List Rect → List Rect
  | [] => [r]
  | s :: ss => if rectOrder r s then r :: s :: ss else s :: insertRect r ss

/-- Modelled from the spec: stable sort realising the ordering policy. -/
def sortRects : List Rect → List Rect
  | [] => []
  | r :: rs => insertRect r (sortRects rs)

/-- Modelled from the spec: one full packing attempt — sort, then place every
rectangle (spec section 4.2). -/
def packFrames (W H p : Nat) (rs : List Rect) : Option (List PackShelf) :=
  packRects W H p (sortRects rs)

/-- All placements of a packing, shelf by shelf. -/
def allPlacements (shelves : List PackShelf) : List Placement :=
  (shelves.map PackShelf.rects).flatten

/-- Axis-aligned gap of at least `p` between two placements, on some axis.
For `p = 0` this is plain disjointness of the half-open rectangles. -/
def sepGapB (p : Nat) (a b : Placement) : Bool :=
  decide (a.x + a.w + p ≤ b.x) || decide (b.x + b.w + p ≤ a.x) ||
  decide (a.y + a.h + p ≤ b.y) || decide (b.y + b.h + p ≤ a.y)

/-- Intersection of the two rectangles each expanded by `p` on all four
sides (the claim's padded rectangles), written without truncating
subtraction. -/
def paddedOverlapB (p : Nat) (a b : Placement) : Bool :=
  decide (a.x < b.x + b.w + 2 * p) && decide (b.x < a.x + a.w + 2 * p) &&
  decide (a.y < b.y + b.h + 2 * p) && decide (b.y < a.y + a.h + 2 * p)

/-- Invariant of a single shelf: it lies inside the bin, its cursor is inside
the bin, every placement sits in the shelf band left of the cursor, and the
placements are horizontally separated by at least the padding. -/
def shelfInv (W H p : Nat) (s : PackShelf) : Prop :=
  s.y + s.height ≤ H ∧ s.cursor ≤ W ∧
  (∀ pl ∈ s.rects, pl.y = s.y + p ∧ pl.h + p ≤ s.height ∧ pl.x + pl.w ≤ s.cursor) ∧
  List.Pairwise (fun a b : Placement => a.x + a.w + p ≤ b.x) s.rects

/-- The shelves tile the vertical axis contiguously starting at `a`. -/
def contigFrom : Nat → List PackShelf → Prop
  | _, [] => True
  | a, s :: ss => s.y = a ∧ contigFrom (a + s.height) ss

/-- Packing-state invariant: contiguous shelves, each satisfying the shelf
invariant. -/
def stInv (W H p : Nat) (shelves : List PackShelf) : Prop :=
  contigFrom 0 shelves ∧ ∀ s ∈ shelves, shelfInv W H p s

theorem shelfInv_placeInShelf (W H p : Nat) (r : Rect) (s : PackShelf)
    (hf : shelfFits W p r s = true) (hs : shelfInv W H p s) :
    shelfInv W H p (placeInShelf p r s) := by
  have hfh : r.h + p ≤ s.height ∧ s.cursor + p + r.w ≤ W := by
    simpa [shelfFits] using hf
  obtain ⟨h1, h2, h3, h4⟩ := hs
  refine ⟨h1, hfh.2, ?_, ?_⟩
  · intro pl hpl
    simp only [placeInShelf, List.mem_append, List.mem_singleton] at hpl
    rcases hpl with h | rfl
    · rcases h3 pl h with ⟨ha, hb, hc⟩
      refine ⟨ha, hb, ?_⟩
      simp only [placeInShelf]
      omega
    · simp only [placeInShelf]
      exact ⟨trivial, hfh.1, le_rfl⟩
  · simp only [placeInShelf]
    rw [List.pairwise_append]
    refine ⟨h4, List.pairwise_singleton _ _, ?_⟩
    intro a ha b hb
    simp only [List.mem_singleton] at hb
    subst hb
    have hc := (h3 a ha).2.2
    simp only []
    omega

theorem placeBest_skel (W p : Nat) (r : Rect) (hmin : Nat) :
    ∀ (ss ss' : List PackShelf), placeBest W p r hmin ss = some ss' →
      ss'.map (fun s => (s.y, s.height)) = ss.map (fun s => (s.y, s.height)) := by
  intro ss
  induction ss with
  | nil => intro ss' h; rw [placeBest] at h; cases h
  | cons s tt ih =>
    intro ss' h
    by_cases hc : (shelfFits W p r s && decide (s.height = hmin)) = true
    · rw [placeBest, if_pos hc] at h
      cases h
      simp [placeInShelf]
    · rw [placeBest, if_neg hc] at h
      cases hb : placeBest W p r hmin tt with
      | none => rw [hb] at h; simp at h
      | some tt' =>
        rw [hb] at h
        simp only [Option.map_some'] at h
        cases h
        simp [ih tt' hb]

theorem placeBest_inv (W H p : Nat) (r : Rect) (hmin : Nat) :
    ∀ (ss ss' : List PackShelf), placeBest W p r hmin ss = some ss' →
      (∀ s ∈ ss, shelfInv W H p s) → ∀ s ∈ ss', shelfInv W H p s := by
  intro ss
  induction ss with
  | nil => intro ss' h; rw [placeBest] at h; cases h
  | cons s tt ih =>
    intro ss' h hall
    by_cases hc : (shelfFits W p r s && decide (s.height = hmin)) = true
    · rw [placeBest, if_pos hc] at h
      cases h
      intro t ht
      rcases List.mem_cons.mp ht with rfl | ht
      · exact shelfInv_placeInShelf W H p r s (Bool.and_elim_left hc)
          (hall s (List.mem_cons_self s tt))
      · exact hall t (List.mem_cons_of_mem s ht)
    · rw [placeBest, if_neg hc] at h
      cases hb : placeBest W p r hmin tt with
      | none => rw [hb] at h; simp at h
      | some tt' =>
        rw [hb] at h
        simp only [Option.map_some'] at h
        cases h
        intro t ht
        rcases List.mem_cons.mp ht with rfl | ht
        · exact hall t (List.mem_cons_self t tt)
        · exact ih tt' hb (fun u hu => hall u (List.mem_cons_of_mem s hu)) t ht

theorem contigFrom_of_skel :
    ∀ (ss tt : List PackShelf) (a : Nat),
      ss.map (fun s => (s.y, s.height)) = tt.map (fun s => (s.y, s.height)) →
      contigFrom a tt → contigFrom a ss := by
  intro ss
  induction ss with
  | nil => intro tt a _ _; trivial
  | cons s uu ih =>
    intro tt a hm hc
    cases tt with
    | nil => simp at hm
    | cons t vv =>
      simp only [List.map_cons, List.cons.injEq, Prod.mk.injEq] at hm
      obtain ⟨⟨hy, hh⟩, hrest⟩ := hm
      obtain ⟨h1, h2⟩ := hc
      refine ⟨hy.trans h1, ?_⟩
      rw [hh]
      exact ih vv (a + t.height) hrest h2

theorem shelvesEnd_contig :
    ∀ (ss : List PackShelf) (a : Nat), contigFrom a ss → ss ≠ [] →
      shelvesEnd ss = a + (ss.map PackShelf.height).sum := by
  intro ss
  induction ss with
  | nil => intro a _ hne; exact absurd rfl hne
  | cons s tt ih =>
    intro a hc _
    obtain ⟨h1, h2⟩ := hc
    cases tt with
    | nil => simp [shelvesEnd, h1]
    | cons u uu =>
      have h3 := ih (a + s.height) h2 (by simp)
      simp only [shelvesEnd] at h3 ⊢
      simp only [List.map_cons, List.sum_cons] at h3 ⊢
      omega

theorem contigFrom_append (s' : PackShelf) :
    ∀ (ss : List PackShelf) (a : Nat), contigFrom a ss →
      s'.y = a + (ss.map PackShelf.height).sum → contigFrom a (ss ++ [s']) := by
  intro ss
  induction ss with
  | nil =>
    intro a _ hy
    simp only [List.map_nil, List.sum_nil, Nat.add_zero] at hy
    exact ⟨hy, trivial⟩
  | cons s tt ih =>
    intro a hc hy
    obtain ⟨h1, h2⟩ := hc
    refine ⟨h1, ih (a + s.height) h2 ?_⟩
    simp only [List.map_cons, List.sum_cons] at hy
    omega

theorem stInv_newShelf (W H p : Nat) (r : Rect) (shelves ss' : List PackShelf)
    (hinv : stInv W H p shelves) (h : newShelf W H p r shelves = some ss') :
    stInv W H p ss' := by
  simp only [newShelf] at h
  split_ifs at h with hcond
  · cases h
    obtain ⟨hc, hall⟩ := hinv
    constructor
    · apply contigFrom_append _ shelves 0 hc
      by_cases hnil : shelves = []
      · subst hnil; simp [shelvesEnd]
      · simpa using shelvesEnd_contig shelves 0 hc hnil
    · intro t ht
      rcases List.mem_append.mp ht with h | h
      · exact hall t h
      · simp only [List.mem_singleton] at h
        subst h
        unfold shelfInv
        dsimp only
        refine ⟨by omega, hcond.2, ?_, List.pairwise_singleton _ _⟩
        intro pl hpl
        simp only [List.mem_singleton] at hpl
        subst hpl
        exact ⟨rfl, le_rfl, le_rfl⟩

theorem stInv_placeRect (W H p : Nat) (shelves ss' : List PackShelf) (r : Rect)
    (hinv : stInv W H p shelves) (h : placeRect W H p shelves r = some ss') :
    stInv W H p ss' := by
  unfold placeRect at h
  cases hm : minFitHeight W p r shelves with
  | some hmin =>
    rw [hm] at h
    exact ⟨contigFrom_of_skel ss' shelves 0 (placeBest_skel W p r hmin shelves ss' h) hinv.1,
           placeBest_inv W H p r hmin shelves ss' h hinv.2⟩
  | none =>
    rw [hm] at h
    exact stInv_newShelf W H p r shelves ss' hinv h

theorem stInv_packRects (W H p : Nat) :
    ∀ (rs : List Rect) (st out : List PackShelf), stInv W H p st →
      rs.foldlM (placeRect W H p) st = some out → stInv W H p out := by
  intro rs
  induction rs with
  | nil =>
    intro st out h1 h2
    simp only [List.foldlM_nil, Option.pure_def, Option.some.injEq] at h2
    subst h2
    exact h1
  | cons r rs ih =>
    intro st out h1 h2
    rw [List.foldlM_cons] at h2
    cases hp : placeRect W H p st r with
    | none => rw [hp] at h2; simp at h2
    | some st' =>
      rw [hp] at h2
      simp only [Option.bind_eq_bind, Option.some_bind] at h2
      exact ih st' out (stInv_placeRect W H p st st' r h1 hp) h2

theorem contig_le :
    ∀ (ss : List PackShelf) (a : Nat), contigFrom a ss → ∀ s ∈ ss, a ≤ s.y := by
  intro ss
  induction ss with
  | nil => intro a _ s hs; cases hs
  | cons s tt ih =>
    intro a hc t ht
    obtain ⟨h1, h2⟩ := hc
    rcases List.mem_cons.mp ht with rfl | ht
    · omega
    · exact le_trans (by omega) (ih (a + s.height) h2 t ht)

theorem contig_pairwise :
    ∀ (ss : List PackShelf) (a : Nat), contigFrom a ss →
      List.Pairwise (fun s t : PackShelf => s.y + s.height ≤ t.y) ss := by
  intro ss
  induction ss with
  | nil => intro a _; exact List.Pairwise.nil
  | cons s tt ih =>
    intro a hc
    obtain ⟨h1, h2⟩ := hc
    refine List.pairwise_cons.mpr ⟨?_, ih (a + s.height) h2⟩
    intro t ht
    have := contig_le tt (a + s.height) h2 t ht
    omega

theorem stInv_placements (W H p : Nat) (shelves : List PackShelf)
    (hinv : stInv W H p shelves) :
    (∀ pl ∈ allPlacements shelves, pl.x + pl.w ≤ W ∧ pl.y + pl.h ≤ H) ∧
    List.Pairwise (fun a b => sepGapB p a b = true) (allPlacements shelves) := by
  obtain ⟨hc, hall⟩ := hinv
  constructor
  · intro pl hpl
    rcases List.mem_flatten.mp hpl with ⟨l, hl, hpl2⟩
    rcases List.mem_map.mp hl with ⟨s, hs, rfl⟩
    obtain ⟨h1, h2, h3, _⟩ := hall s hs
    rcases h3 pl hpl2 with ⟨hy, hh, hx⟩
    exact ⟨le_trans hx h2, by omega⟩
  · rw [allPlacements, List.pairwise_flatten]
    constructor
    · intro l hl
      rcases List.mem_map.mp hl with ⟨s, hs, rfl⟩
      refine ((hall s hs).2.2.2).imp ?_
      intro a b hab
      simp only [sepGapB, Bool.or_eq_true, decide_eq_true_eq]
      omega
    · rw [List.pairwise_map]
      refine (contig_pairwise shelves 0 hc).imp_of_mem ?_
      intro s t hs ht hord x hx y hy
      obtain ⟨_, _, h3s, _⟩ := hall s hs
      obtain ⟨_, _, h3t, _⟩ := hall t ht
      rcases h3s x hx with ⟨hxy, hxh, _⟩
      rcases h3t y hy with ⟨hyy, _, _⟩
      simp only [sepGapB, Bool.or_eq_true, decide_eq_true_eq]
      omega

/-- Claim C1 (amended): for every successful packing, every placed rectangle
lies fully within the atlas bounds, and every pair of distinct placed frames
is separated by an axis-aligned gap of at least the configured padding
(equivalently, one rectangle of the pair expanded by the padding on all sides
does not meet the other); for padding 0 this is plain non-intersection. -/
theorem packFrames_no_overlap (W H p : Nat) (rs : List Rect) (shelves : List PackShelf)
    (h : packFrames W H p rs = some shelves) :
    (∀ pl ∈ allPlacements shelves, pl.x + pl.w ≤ W ∧ pl.y + pl.h ≤ H) ∧
    List.Pairwise (fun a b => sepGapB p a b = true) (allPlacements shelves) :=
  stInv_placements W H p shelves
    (stInv_packRects W H p (sortRects rs) [] shelves ⟨trivial, fun s hs => absurd hs (List.not_mem_nil s)⟩ h)

/-- Witness for C1: two 1×1 frames packed with padding 1 into a 64×64 bin. -/
theorem packFrames_no_overlap_witness :
    (∀ pl ∈ allPlacements [⟨0, 2, 4, [⟨1, 1, 1, 1, 0⟩, ⟨3, 1, 1, 1, 1⟩]⟩],
        pl.x + pl.w ≤ 64 ∧ pl.y + pl.h ≤ 64) ∧
    List.Pairwise (fun a b => sepGapB 1 a b = true)
      (allPlacements [⟨0, 2, 4, [⟨1, 1, 1, 1, 0⟩, ⟨3, 1, 1, 1, 1⟩]⟩]) :=
  packFrames_no_overlap 64 64 1 [⟨1, 1, 0⟩, ⟨1, 1, 1⟩]
    [⟨0, 2, 4, [⟨1, 1, 1, 1, 0⟩, ⟨3, 1, 1, 1, 1⟩]⟩] (by decide)

/-- Claim C1 counterexample: the claim's padded rectangles — each expanded by
the padding on all four sides — can intersect.  With padding 1 two 1×1 frames
pack successfully at content positions (1,1) and (3,1); the gap between them
is exactly the padding, so the two all-side-expanded rectangles overlap. -/
theorem packFrames_padded_overlap_cex :
    ¬ (∀ (W H p : Nat) (rs : List Rect) (shelves : List PackShelf),
        packFrames W H p rs = some shelves →
        List.Pairwise (fun a b => paddedOverlapB p a b = false) (allPlacements shelves)) := by
  intro hclaim
  have h := hclaim 64 64 1 [⟨1, 1, 0⟩, ⟨1, 1, 1⟩]
    [⟨0, 2, 4, [⟨1, 1, 1, 1, 0⟩, ⟨3, 1, 1, 1, 1⟩]⟩] (by decide)
  simp only [allPlacements, List.map_cons, List.map_nil, List.flatten,
    List.append_nil, List.pairwise_cons, List.mem_singleton] at h
  have h2 := h.1 ⟨3, 1, 1, 1, 1⟩ rfl
  exact absurd h2 (by decide)

/-- Modelled from the spec: the Atlas Builder growth loop (spec section 4.3):
attempt a packing at the current size; on failure grow width and height
alternately by `step` — width first — and retry; a bounded number of attempts
(the growth ceiling) caps the loop, after which exhaustion is reported. -/
def atlasBuildAux (p step : Nat) (rs : List Rect) :
    Nat → Nat → Bool → Nat → Option (Nat × Nat × List PackShelf)
  | _, _, _, 0 => none
  | W, H, growW, fuel + 1 =>
      match packFrames W H p rs with
      | some shelves => some (W, H, shelves)
      | none =>
          if growW then atlasBuildAux p step rs (W + step) H false fuel
          else atlasBuildAux p step rs W (H + step) true fuel

/-- Modelled from the spec: the growth loop started at the configured initial
size, growing the width first. -/
def atlasBuild (p step : Nat) (rs : List Rect) (W H fuel : Nat) :
    Option (Nat × Nat × List PackShelf) :=
  atlasBuildAux p step rs W H true fuel

/-- The canvas sizes the growth loop attempts, in order: the current size,
then alternating increments of `step` on width and height (width first when
`growW` is set), up to the ceiling. -/
def attemptSizes (step : Nat) : Nat → Nat → Bool → Nat → List (Nat × Nat)
  | _, _, _, 0 => []
  | W, H, growW, fuel + 1 =>
      (W, H) :: (if growW then attemptSizes step (W + step) H false fuel
                 else attemptSizes step W (H + step) true fuel)

/-- Claim C3: when the growth loop reports exhaustion, every size in the
alternating growth sequence below the ceiling — the current size, then each
size enlarged by `step` alternating width and height, width first — was
attempted and failed; in particular no ungrown, unattempted size below the
ceiling remains, and after any failure the enlarged size is attempted before
exhaustion is declared. -/
theorem atlasBuild_exhaustion (p step : Nat) (rs : List Rect) :
    ∀ (fuel W H : Nat) (growW : Bool),
      atlasBuildAux p step rs W H growW fuel = none →
      ∀ wh ∈ attemptSizes step W H growW fuel, packFrames wh.1 wh.2 p rs = none := by
  intro fuel
  induction fuel with
  | zero =>
    intro W H growW _ wh hwh
    rw [attemptSizes] at hwh
    cases hwh
  | succ n ih =>
    intro W H growW hnone wh hwh
    cases hp : packFrames W H p rs with
    | some sh =>
      rw [atlasBuildAux, hp] at hnone
      cases hnone
    | none =>
      rw [atlasBuildAux, hp] at hnone
      rw [attemptSizes] at hwh
      rcases List.mem_cons.mp hwh with h | hwh2
      · rw [h]
        exact hp
      · cases growW
        · simp only [Bool.false_eq_true, if_neg] at hnone hwh2
          exact ih W (H + step) true hnone wh hwh2
        · simp only [if_pos] at hnone hwh2
          exact ih (W + step) H false hnone wh hwh2

/-- Witness for C3: a 10×10 rectangle exhausts a growth loop started at 1×1
with step 1 and ceiling 2; the grown size (2, 1) was attempted and failed. -/
theorem atlasBuild_exhaustion_witness :
    packFrames 2 1 0 [⟨10, 10, 0⟩] = none :=
  atlasBuild_exhaustion 0 1 [⟨10, 10, 0⟩] 2 1 1 true (by decide) (2, 1) (by decide)

/-- A fully transparent RGBA sample. -/
def blankPixel : Pixel := { r := 0, g := 0, b := 0, a := 0 }

/-- Pixel lookup in a buffer, transparent outside the buffer. -/
def pixelAt (buf : List (List Pixel)) (x y : Nat) : Pixel :=
  (buf.getD y []).getD x blankPixel

/-- Modelled from the spec: composition (spec section 4.3) — the atlas pixel
at `(x, y)` is the corresponding trimmed source pixel of the placement whose
rectangle covers `(x, y)`, and fully transparent outside all placed
rectangles. -/
def composePixel (frames : List Frame) (pls : List Placement) (x y : Nat) : Pixel :=
  match pls.find? (fun q => decide (q.x ≤ x) && decide (x < q.x + q.w) &&
      decide (q.y ≤ y) && decide (y < q.y + q.h)) with
  | some q =>
      match frames.get? q.id with
      | some f => pixelAt f.pixels (x - q.x + f.trim_off.1) (y - q.y + f.trim_off.2)
      | none => blankPixel
  | none => blankPixel

/-- Modelled from the spec: the composed atlas surface at the final size. -/
def composeImage (Wf Hf : Nat) (frames : List Frame) (pls : List Placement) :
    List (List Pixel) :=
  (List.range Hf).map fun y => (List.range Wf).map fun x => composePixel frames pls x y

/-- Modelled from the spec: one record of the frame-layout file (spec
section 4.4): name, atlas rectangle, trim offset, original size. -/
structure FrameEntry where
  entry_name : String
  atlas_rect : Nat × Nat × Nat × Nat
  trim_offset : Nat × Nat
  original_size : Nat × Nat
deriving DecidableEq, Repr

/-- Modelled from the spec: the layout records, one per input frame, in input
order. -/
def frameEntries (frames : List Frame) (pls : List Placement) : List FrameEntry :=
  (List.range frames.length).filterMap fun i =>
    match pls.find? (fun q => q.id == i) with
    | some q =>
        match frames.get? i with
        | some f => some { entry_name := f.name, atlas_rect := (q.x, q.y, q.w, q.h),
                           trim_offset := f.trim_off, original_size := (f.width, f.height) }
        | none => none
    | none => none

/-- The two output artifacts of a successful pack, plus the final size. -/
structure PackOutput where
  final_width : Nat
  final_height : Nat
  image : List (List Pixel)
  framedata : List FrameEntry
deriving DecidableEq, Repr

/-- Modelled from the spec: the full packing pipeline for a materialised
frame list — optional trimming, rectangle building from the trimmed sizes,
the growth loop from the configured initial size, then composition and
layout serialization (spec sections 4.1-4.4). -/
def runPack (W H p step : Nat) (trimFlag : Bool) (fuel : Nat)
    (frames0 : List Frame) : Option PackOutput :=
  let frames := if trimFlag then frames0.map Frame.trimEdges else frames0
  let rects := frames.enum.map fun nf =>
    ({ w := nf.2.trim_sz.1, h := nf.2.trim_sz.2, id := nf.1 } : Rect)
  match atlasBuild p step rects W H fuel with
  | some (Wf, Hf, shelves) =>
      let pls := allPlacements shelves
      some { final_width := Wf, final_height := Hf,
             image := composeImage Wf Hf frames pls,
             framedata := frameEntries frames pls }
  | none => none

/-- Claim C2: determinism — two pack runs over equal input frame lists (same
names, pixels and order) and equal configuration that both succeed produce
equal, hence byte-identical, atlas images and layout data. -/
theorem runPack_deterministic (W1 W2 H1 H2 p1 p2 st1 st2 : Nat) (t1 t2 : Bool)
    (f1 f2 : Nat) (fr1 fr2 : List Frame) (out1 out2 : PackOutput)
    (hW : W1 = W2) (hH : H1 = H2) (hp : p1 = p2) (hst : st1 = st2) (ht : t1 = t2)
    (hf : f1 = f2) (hfr : fr1 = fr2)
    (h1 : runPack W1 H1 p1 st1 t1 f1 fr1 = some out1)
    (h2 : runPack W2 H2 p2 st2 t2 f2 fr2 = some out2) :
    out1.image = out2.image ∧ out1.framedata = out2.framedata := by
  subst hW hH hp hst ht hf hfr
  rw [h1] at h2
  cases h2
  exact ⟨rfl, rfl⟩

/-- Witness for C2: one 1×1 opaque frame packed twice under the same
configuration yields the same image and layout records. -/
theorem runPack_deterministic_witness :
    (PackOutput.mk 2 2
        [[⟨1, 2, 3, 4⟩, blankPixel], [blankPixel, blankPixel]]
        [⟨"a", (0, 0, 1, 1), (0, 0), (1, 1)⟩]).image
      = (PackOutput.mk 2 2
        [[⟨1, 2, 3, 4⟩, blankPixel], [blankPixel, blankPixel]]
        [⟨"a", (0, 0, 1, 1), (0, 0), (1, 1)⟩]).image ∧
    (PackOutput.mk 2 2
        [[⟨1, 2, 3, 4⟩, blankPixel], [blankPixel, blankPixel]]
        [⟨"a", (0, 0, 1, 1), (0, 0), (1, 1)⟩]).framedata
      = (PackOutput.mk 2 2
        [[⟨1, 2, 3, 4⟩, blankPixel], [blankPixel, blankPixel]]
        [⟨"a", (0, 0, 1, 1), (0, 0), (1, 1)⟩]).framedata :=
  runPack_deterministic 2 2 2 2 0 0 2 2 true true 1 1
    [mkFrame ("a") [[⟨1, 2, 3, 4⟩]]] [mkFrame ("a") [[⟨1, 2, 3, 4⟩]]]
    (PackOutput.mk 2 2
        [[⟨1, 2, 3, 4⟩, blankPixel], [blankPixel, blankPixel]]
        [⟨"a", (0, 0, 1, 1), (0, 0), (1, 1)⟩])
    (PackOutput.mk 2 2
        [[⟨1, 2, 3, 4⟩, blankPixel], [blankPixel, blankPixel]]
        [⟨"a", (0, 0, 1, 1), (0, 0), (1, 1)⟩])
    rfl rfl rfl rfl rfl rfl rfl (by rfl) (by rfl)
